import Mathlib

/-!
Formal model of the word-bearer ladder-league engine.

Shallow embedding conventions:
* UTC instants are modelled as epoch seconds (`Int`); `datetime` subtraction
  followed by `timedelta.days` becomes floored division by 86400.
* Python `dict`s are modelled as association lists in insertion order
  (`alistLookup` / `alistInsert`), matching CPython's ordered dictionaries:
  assigning to an existing key replaces its value in place, assigning to a
  fresh key appends.
* Fallible Python code (functions that may `raise`) returns `Except String`.
* Integer arithmetic is exact (`Int`), as Python integers are unbounded;
  `math.ceil(gap / 2)` on an integer `gap` is `(gap + 1).fdiv 2`.
-/

set_option autoImplicit false

/-- Lookup in an insertion-ordered association list (Python `dict` read). -/
def alistLookup {α β : Type} [DecidableEq α] : List (α × β) → α → Option β
  | [], _ => none
  | p :: rest, k => if k = p.1 then some p.2 else alistLookup rest k

/-- Write to an insertion-ordered association list (Python `dict` assignment):
replace in place when the key is present, append when it is fresh. -/
def alistInsert {α β : Type} [DecidableEq α] (m : List (α × β)) (k : α) (v : β) :
    List (α × β) :=
  if (alistLookup m k).isSome then
    m.map (fun p => if p.1 = k then (k, v) else p)
  else
    m ++ [(k, v)]

/-- `INITIAL_POINTS` from ladder.py. -/
def INITIAL_POINTS : Int := 10

/-- `LadderPeriod` is an `IntEnum` (int-valued); it is modelled as `Int`
with `WEEKLY = 7`, so period values other than the weekly one are
expressible, matching the guard in `period_of_date`. -/
abbrev LadderPeriod := Int

/-- `LadderPeriod.WEEKLY = 7` from ladder.py. -/
def LadderPeriod.WEEKLY : LadderPeriod := 7

/-- `LadderConfig` from ladder.py; `start_date` and `end_date` are UTC
epoch seconds. -/
structure LadderConfig where
  start_date : Int
  end_date : Int
  period : LadderPeriod
  games_per_period : Int
deriving Repr, DecidableEq

/-- `LadderPlayer` from ladder.py.  `match_periods` is the
period-index → scored-game-count dictionary, kept in insertion order. -/
structure LadderPlayer where
  name : String
  games_played : Int
  games_won : Int
  games_drawn : Int
  opponents_played : List String
  total_vp : Int
  ladder_points : Int
  match_periods : List (Int × Int)
deriving Repr, DecidableEq

/-- `LadderPlayer.__init__(name, initial_points)` from ladder.py. -/
def LadderPlayer.init (name : String) (initial_points : Int) : LadderPlayer :=
  { name := name
    games_played := 0
    games_won := 0
    games_drawn := 0
    opponents_played := []
    total_vp := 0
    ladder_points := initial_points
    match_periods := [] }

/-- `DiscordLadderResult` from manager.py, the one concrete `LadderResult`.
Its `match_date()` is `datetime.fromtimestamp(self.time, UTC)`, i.e. the
instant `time` itself in the epoch-second model. -/
structure DiscordLadderResult where
  player : String
  opponent : String
  time : Int
  player_victory : Bool
  draw : Bool
  vp_player : Int
  vp_opponent : Int
  league_name : String
deriving Repr, DecidableEq

/-- Error message raised by `period_of_date` for a non-weekly period. -/
def unsupportedPeriodMsg : String :=
  "Period determination not implemented for LadderConfig.period"

/-- `period_of_date(d, c)` from ladder.py: `(d - c.start_date).days % 7`
for the weekly period, a `RuntimeError` otherwise.  `timedelta.days` is
the floored number of whole days, i.e. `fdiv` by 86400. -/
def period_of_date (d : Int) (c : LadderConfig) : Except String Int :=
  let result_diff := d - c.start_date
  if c.period = LadderPeriod.WEEKLY then
    Except.ok ((result_diff.fdiv 86400) % 7)
  else
    Except.error unsupportedPeriodMsg

/-- `math.ceil(g / 2)` for an integer `g`. -/
def ceilHalf (g : Int) : Int := (g + 1).fdiv 2

/-- The scored-game count a player has recorded for a period index
(`result_period in p.match_periods and p.match_periods[result_period] > 0`
is `0 < periodCount p result_period`). -/
def periodCount (p : LadderPlayer) (period : Int) : Int :=
  (alistLookup p.match_periods period).getD 0

/-- Tail of `update_players_basic` (ladder.py lines 161-174): the
new-matchup bonus, the period-gated ladder-point deltas, and the period
counter increments.  `a3`/`b3` are the two players after the
games-played/VP/outcome-count updates, `a_addtl`/`b_addtl` the pending
ladder-point deltas, `a_played`/`b_played` the pre-result period flags. -/
def updateTail (a3 b3 : LadderPlayer) (a_addtl b_addtl : Int)
    (a_played b_played : Bool) (r : DiscordLadderResult) (result_period : Int) :
    LadderPlayer × LadderPlayer :=
  let isNew := ¬(r.opponent ∈ a3.opponents_played)
  let a4 := if isNew then
      { a3 with opponents_played := a3.opponents_played ++ [r.opponent],
                ladder_points := a3.ladder_points + 1 }
    else a3
  let b4 := if isNew then
      { b3 with opponents_played := b3.opponents_played ++ [r.player],
                ladder_points := b3.ladder_points + 1 }
    else b3
  let a5 := if a_played then a4 else
      { a4 with ladder_points := a4.ladder_points + a_addtl,
                match_periods := alistInsert a4.match_periods result_period 0 }
  let b5 := if b_played then b4 else
      { b4 with ladder_points := b4.ladder_points + b_addtl,
                match_periods := alistInsert b4.match_periods result_period 0 }
  let amp := alistInsert a5.match_periods result_period ((alistLookup a5.match_periods result_period).getD 0 + 1)
  let bmp := alistInsert b5.match_periods result_period ((alistLookup b5.match_periods result_period).getD 0 + 1)
  ({ a5 with match_periods := amp }, { b5 with match_periods := bmp })

/-- Body of `update_players_basic` after the period has been determined
(ladder.py lines 128-174), for two distinct player objects. -/
def updateCore (a b : LadderPlayer) (r : DiscordLadderResult)
    (result_period : Int) : LadderPlayer × LadderPlayer :=
  let a_played := decide (0 < periodCount a result_period)
  let b_played := decide (0 < periodCount b result_period)
  let a1 := { a with games_played := a.games_played + 1,
                     total_vp := a.total_vp + r.vp_player }
  let b1 := { b with games_played := b.games_played + 1,
                     total_vp := b.total_vp + r.vp_opponent }
  if r.player_victory then
    updateTail { a1 with games_won := a1.games_won + 1 } b1
      ((if b1.ladder_points > a1.ladder_points then
          ceilHalf (b1.ladder_points - a1.ladder_points) else 0) + 2)
      1 a_played b_played r result_period
  else if r.draw then
    updateTail { a1 with games_drawn := a1.games_drawn + 1 }
      { b1 with games_drawn := b1.games_drawn + 1 }
      1 1 a_played b_played r result_period
  else
    updateTail a1 { b1 with games_won := b1.games_won + 1 }
      1
      ((if a1.ladder_points > b1.ladder_points then
          ceilHalf (a1.ladder_points - b1.ladder_points) else 0) + 2)
      a_played b_played r result_period

/-- `update_players_basic(a, b, result, config)` from ladder.py, for two
distinct player objects: the period computation may raise, everything
after it is `updateCore`. -/
def update_players_basic (a b : LadderPlayer) (r : DiscordLadderResult)
    (c : LadderConfig) : Except String (LadderPlayer × LadderPlayer) := do
  let result_period ← period_of_date r.time c
  pure (updateCore a b r result_period)

/-- `update_players_basic` when `compute_standings` passes the *same*
`LadderPlayer` object as both `a` and `b` (a player reported against
themselves: `result.player_name() == result.opponent_name()`).  Every
mutation of the Python function then acts on the single object; this
definition replays them in source order. -/
def updateSelfCore (p : LadderPlayer) (r : DiscordLadderResult)
    (result_period : Int) : LadderPlayer :=
  let played := decide (0 < periodCount p result_period)
  let p1 := { p with games_played := p.games_played + 2,
                     total_vp := p.total_vp + r.vp_player + r.vp_opponent }
  let q :=
    if r.player_victory then
      ({ p1 with games_won := p1.games_won + 1 }, (2 : Int), (1 : Int))
    else if r.draw then
      ({ p1 with games_drawn := p1.games_drawn + 2 }, 1, 1)
    else
      ({ p1 with games_won := p1.games_won + 1 }, 1, 2)
  let p2 := q.1
  let p3 := if r.opponent ∈ p2.opponents_played then p2 else
      { p2 with opponents_played := p2.opponents_played ++ [r.opponent, r.player],
                ladder_points := p2.ladder_points + 2 }
  let p4 := if played then p3 else
      { p3 with ladder_points := p3.ladder_points + q.2.1 + q.2.2,
                match_periods := alistInsert p3.match_periods result_period 0 }
  let pmp := alistInsert p4.match_periods result_period ((alistLookup p4.match_periods result_period).getD 0 + 2)
  { p4 with match_periods := pmp }

/-- Aliased variant of `update_players_basic` (same object both sides). -/
def update_self (p : LadderPlayer) (r : DiscordLadderResult)
    (c : LadderConfig) : Except String LadderPlayer := do
  let result_period ← period_of_date r.time c
  pure (updateSelfCore p r result_period)

/-- The lazy ledger creation of the `compute_standings` loop (ladder.py
lines 194-201): add fresh ledgers (10 initial points) for the player and
the opponent names if absent. -/
def extendMap (m : List (String × LadderPlayer)) (r : DiscordLadderResult) :
    List (String × LadderPlayer) :=
  let m1 := if (alistLookup m r.player).isSome then m
    else m ++ [(r.player, LadderPlayer.init r.player INITIAL_POINTS)]
  if (alistLookup m1 r.opponent).isSome then m1
  else m1 ++ [(r.opponent, LadderPlayer.init r.opponent INITIAL_POINTS)]

/-- One iteration of the `compute_standings` loop (ladder.py lines
193-207): lazily create the two ledgers, then apply the update rule.
When the two names coincide the Python code passes one object under two
aliases, hence the `update_self` branch. -/
def standingsStep (c : LadderConfig) (m : List (String × LadderPlayer))
    (r : DiscordLadderResult) : Except String (List (String × LadderPlayer)) :=
  let m2 := extendMap m r
  if r.player = r.opponent then do
    let p := (alistLookup m2 r.player).getD (LadderPlayer.init r.player INITIAL_POINTS)
    let p2 ← update_self p r c
    pure (alistInsert m2 r.player p2)
  else do
    let a := (alistLookup m2 r.player).getD (LadderPlayer.init r.player INITIAL_POINTS)
    let b := (alistLookup m2 r.opponent).getD (LadderPlayer.init r.opponent INITIAL_POINTS)
    let ab ← update_players_basic a b r c
    pure (alistInsert (alistInsert m2 r.player ab.1) r.opponent ab.2)

/-- `compute_standings(results, config, update_players_basic)` from
ladder.py: fold the result sequence over the player map in input order,
then return the map values in insertion order. -/
def compute_standings (results : List DiscordLadderResult)
    (c : LadderConfig) : Except String (List LadderPlayer) := do
  let m ← results.foldlM (standingsStep c) []
  pure (m.map (fun p => p.2))

/-! ### Result-log serialization (src/ladder/manager.py)

`store_result` writes `result.model_dump()` through `csv.DictWriter` in
`DiscordLadderResult.model_fields` order; `_read_results` reads rows back
with `csv.DictReader` and validates them with pydantic.  A CSV data row is
modelled as the list of its cell strings (the `csv` module round-trips each
cell verbatim; the header row is abstracted away, as `DictReader` consumes
it).  Python stringification: `str` fields stay as they are, `int` fields
become their decimal representation, `bool` fields become `True`/`False`.
Pydantic lax validation parses decimal integers back and accepts
`true/false/1/0/yes/no/on/off/t/f/y/n` (case-insensitive) for booleans. -/

/-- Decimal digit character for `d < 10`. -/
def digitChar (d : Nat) : Char := Char.ofNat (48 + d)

/-- Numeric value of a decimal digit character. -/
def digitVal (c : Char) : Option Nat :=
  if 48 ≤ c.toNat ∧ c.toNat ≤ 57 then some (c.toNat - 48) else none

/-- Little-endian decimal digits of `n` (`fuel ≥ n` suffices). -/
def natDigitsRev : Nat → Nat → List Char
  | 0, _ => []
  | fuel + 1, n =>
    if n = 0 then [] else digitChar (n % 10) :: natDigitsRev fuel (n / 10)

/-- Python `str(n)` for a natural number. -/
def natStr (n : Nat) : String := if n = 0 then "0" else ⟨(natDigitsRev n n).reverse⟩

/-- Value of a little-endian decimal digit string. -/
def digitsRevVal : List Char → Option Nat
  | [] => some 0
  | c :: cs => do
    let d ← digitVal c
    let r ← digitsRevVal cs
    pure (d + 10 * r)

/-- Python `str(i)` for an `int`. -/
def intStr : Int → String
  | Int.ofNat n => natStr n
  | Int.negSucc n => "-" ++ natStr (n + 1)

/-- Character-list form of `parseIntStr`. -/
def parseIntChars : List Char → Option Int
  | [] => none
  | c :: cs =>
    if c = '-' then
      if cs = [] then none
      else (digitsRevVal cs.reverse).map (fun v => -(v : Int))
    else
      (digitsRevVal (c :: cs).reverse).map (fun v => (v : Int))

/-- Pydantic lax validation of an `int` field from a CSV cell
(`int(cell)` semantics on an optionally signed decimal string). -/
def parseIntStr (s : String) : Option Int := parseIntChars s.data

/-- Python `str(b)` for a `bool`. -/
def boolStr (b : Bool) : String := if b then "True" else "False"

/-- Lower-cased character list of a CSV cell (Python `s.lower()` for the
ASCII strings pydantic compares against). -/
def lowerChars (s : String) : List Char := s.data.map Char.toLower

/-- Pydantic lax validation of a `bool` field from a CSV cell. -/
def parseBoolStr (s : String) : Option Bool :=
  let t := lowerChars s
  if t = "true".data ∨ t = "1".data ∨ t = "yes".data ∨ t = "on".data ∨ t = "y".data ∨ t = "t".data then
    some true
  else if t = "false".data ∨ t = "0".data ∨ t = "no".data ∨ t = "off".data ∨ t = "n".data ∨ t = "f".data then
    some false
  else none

/-- The CSV data row written for one result by `store_result`
(`model_dump` in `model_fields` order, stringified by the csv writer). -/
def serialize_result (r : DiscordLadderResult) : List String :=
  [r.player, r.opponent, intStr r.time, boolStr r.player_victory,
   boolStr r.draw, intStr r.vp_player, intStr r.vp_opponent, r.league_name]

/-- `DiscordLadderResult.model_validate(row)` on a CSV data row. -/
def parse_result_row (row : List String) : Option DiscordLadderResult :=
  match row with
  | [p, o, t, pv, d, vp1, vp2, ln] => do
    let t2 ← parseIntStr t
    let pv2 ← parseBoolStr pv
    let d2 ← parseBoolStr d
    let vp12 ← parseIntStr vp1
    let vp22 ← parseIntStr vp2
    pure { player := p, opponent := o, time := t2, player_victory := pv2,
           draw := d2, vp_player := vp12, vp_opponent := vp22, league_name := ln }
  | _ => none

/-- `LadderManager.store_result`: append one serialized row to the log. -/
def store_result (log : List (List String)) (r : DiscordLadderResult) :
    List (List String) :=
  log ++ [serialize_result r]

/-- `LadderManager._read_results`: parse every data row of the log
(`model_validate` raising on any row makes the whole read fail). -/
def read_results (log : List (List String)) : Option (List DiscordLadderResult) :=
  log.mapM parse_result_row

/-! ### Serialization round-trip lemmas -/

/-- A UTC instant with the derived calendar attributes used by
`post_standings`. -/
structure Instant where
  t : Int
  weekday : Int
  hour : Int
  isoWeek : Int
deriving Repr, DecidableEq

/-- The sendable-channel kinds of the discord client; `get_channel` may
also return a channel of some other kind, or nothing. -/
inductive ChannelKind where
  | textChannel
  | thread
  | otherKind
deriving Repr, DecidableEq

/-- One league's durable state as seen by its `LadderManager`: the ladder
config, posting weekday, destination channel, the posted-week record
(message-record json) and the result log (already parsed). -/
structure LeagueState where
  league_name : String
  config : LadderConfig
  posting_day : Int
  channel_id : Int
  record : List Int
  results : List DiscordLadderResult
deriving Repr, DecidableEq

/-- The `valid_date` check of `post_standings` (manager.py line 182):
`now <= end_date and now >= start_date` — both bounds inclusive. -/
def valid_date_check (c : LadderConfig) (now : Instant) : Bool :=
  decide (now.t ≤ c.end_date) && decide (now.t ≥ c.start_date)

/-- The `valid_day and valid_time and valid_date` gate of
`post_standings` (manager.py lines 182-185). -/
def valid_gates (lg : LeagueState) (now : Instant) : Bool :=
  decide (now.weekday ≥ lg.posting_day) && decide (now.hour ≥ 16)
    && valid_date_check lg.config now

/-- `LadderManager._post_standings`: compute standings; if empty, return
without sending; otherwise send to the channel, raising a `RuntimeError`
when it is not a text channel or thread (including when `get_channel`
returned nothing).  The returned `Bool` records whether a message was
sent. -/
def post_standings_send (lg : LeagueState) (channel : Option ChannelKind) :
    Except String Bool := do
  let standings ← compute_standings lg.results lg.config
  if standings.length = 0 then
    pure false
  else if channel = some ChannelKind.textChannel ∨ channel = some ChannelKind.thread then
    pure true
  else
    Except.error "LadderManager requested invalid channel"

/-- `LadderManager.post_standings`: the four gates, the posted-week
lookup, the send, and the appending of the current ISO week to the
record.  Returns (message-sent, new posted-week record). -/
def post_standings (lg : LeagueState) (now : Instant)
    (channel : Option ChannelKind) : Except String (Bool × List Int) :=
  if valid_gates lg now then
    if lg.record.contains now.isoWeek then
      Except.ok (false, lg.record)
    else do
      let sent ← post_standings_send lg channel
      Except.ok (sent, lg.record ++ [now.isoWeek])
  else
    Except.ok (false, lg.record)

/-- The per-league condition of `MatchCommands._active_leagues`
(client.py line 184): `now >= start_date and now <= end_date`. -/
def in_league_window (now : Int) (c : LadderConfig) : Bool :=
  decide (now ≥ c.start_date) && decide (now ≤ c.end_date)

/-- `MatchCommands._active_leagues`: names of leagues whose window
contains `now`, or the placeholder entry when none are. -/
def active_leagues (managers : List LeagueState) (now : Int) : List String :=
  let leagues := (managers.filter (fun m => in_league_window now m.config)).map
    (fun m => m.league_name)
  if leagues.isEmpty then ["No active leagues available"] else leagues

/-! ### Scheduled message jobs (src/components/messagejob.py) and the
worker tick (src/client.py `job_runner`) -/

/-- `MessageJob` from messagejob.py (`timestamp` in epoch seconds). -/
structure MessageJob where
  id : String
  timestamp : Int
  channel_id : Int
  content : String
  files : List String
deriving Repr, DecidableEq

/-- The discord client as seen by the dispatcher: channel lookup. -/
structure DiscordEnv where
  get_channel : Int → Option ChannelKind

/-- The dispatcher's state: the in-memory job map (insertion ordered),
the ids of job files in the pending directory, the ids of job files in
the finished directory, and the ghost log of sent message-job ids. -/
structure HandlerState where
  jobs : List (String × MessageJob)
  pending : List String
  finished : List String
  sent : List String
deriving Repr, DecidableEq

/-- `MessageJobHandler._run_job`: look up the channel; nothing found is a
silent return (no send), a non-sendable kind raises, otherwise the
message is sent.  The `Bool` records whether a message was sent. -/
def run_job (env : DiscordEnv) (job : MessageJob) : Except String Bool :=
  match env.get_channel job.channel_id with
  | none => Except.ok false
  | some k =>
    if k = ChannelKind.textChannel ∨ k = ChannelKind.thread then Except.ok true
    else Except.error "Job requested invalid channel"

/-- `MessageJobHandler._mark_done`: pop the job from the in-memory map
and move its file from the pending to the finished directory (the move
happens only if the pending file exists). -/
def mark_done (job : MessageJob) (st : HandlerState) : HandlerState :=
  { st with
    jobs := st.jobs.filter (fun p => p.1 ≠ job.id)
    pending := st.pending.erase job.id
    finished :=
      if st.pending.contains job.id then st.finished ++ [job.id] else st.finished }

/-- One successful iteration of the `run_jobs` loop: run the job, log the
send, archive the job.  (On an error the Python loop does none of this
and the exception propagates; see `run_jobs_from`.) -/
def step_job (env : DiscordEnv) (job : MessageJob) (st : HandlerState) :
    HandlerState :=
  match run_job env job with
  | Except.ok s =>
    mark_done job { st with sent := if s then st.sent ++ [job.id] else st.sent }
  | Except.error _ => st

/-- The `for job in due` loop of `MessageJobHandler.run_jobs`: process the
precomputed due list in order; the first exception aborts the loop,
leaving the state as accumulated so far and propagating the error. -/
def run_jobs_from (env : DiscordEnv) :
    List MessageJob → HandlerState → HandlerState × Option String
  | [], st => (st, none)
  | j :: rest, st =>
    match run_job env j with
    | Except.error e => (st, some e)
    | Except.ok s =>
      run_jobs_from env rest
        (mark_done j { st with sent := if s then st.sent ++ [j.id] else st.sent })

/-- The due list of `MessageJobHandler.run_jobs`: all jobs in the map
whose timestamp is at or before now, in map (insertion) order. -/
def due_jobs (st : HandlerState) (now : Int) : List MessageJob :=
  (st.jobs.map (fun p => p.2)).filter (fun j => decide (j.timestamp ≤ now))

/-- `MessageJobHandler.run_jobs`. -/
def run_jobs (env : DiscordEnv) (st : HandlerState) (now : Int) :
    HandlerState × Option String :=
  run_jobs_from env (due_jobs st now) st

/-- The `for league in self.leagues.values(): await league.post_standings()`
loop of `WordBearerClient.job_runner`: the first exception aborts the
loop, leaving that league and all later ones untouched. -/
def post_standings_all (env : DiscordEnv) (now : Instant) :
    List LeagueState → List LeagueState × Option String
  | [] => ([], none)
  | lg :: rest =>
    match post_standings lg now (env.get_channel lg.channel_id) with
    | Except.error e => (lg :: rest, some e)
    | Except.ok sr =>
      let lg2 := { lg with record := sr.2 }
      let next := post_standings_all env now rest
      (lg2 :: next.1, next.2)

/-- `WordBearerClient.job_runner`: one 30-second tick — run due message
jobs, then the per-league standings checks.  An exception anywhere
aborts the rest of the tick and propagates. -/
def job_runner (env : DiscordEnv) (st : HandlerState)
    (leagues : List LeagueState) (now : Instant) :
    (HandlerState × List LeagueState) × Option String :=
  match run_jobs env st now.t with
  | (st2, some e) => ((st2, leagues), some e)
  | (st2, none) =>
    let lr := post_standings_all env now leagues
    ((st2, lr.1), lr.2)

/-! ### Field-level characterization of the update rule -/

/-- The new-matchup bonus a result grants (checked on player `a`'s
opponent list only, granted to both sides). -/
def matchup_bonus (a : LadderPlayer) (r : DiscordLadderResult) : Int :=
  if r.opponent ∈ a.opponents_played then 0 else 1

/-- The pending outcome/play ladder-point delta for the reporting player:
play + win + gap bonus on a win, play otherwise. -/
def a_addtl_formula (a b : LadderPlayer) (r : DiscordLadderResult) : Int :=
  if r.player_victory then
    (if b.ladder_points > a.ladder_points then
      ceilHalf (b.ladder_points - a.ladder_points) else 0) + 2
  else 1

/-- The pending outcome/play ladder-point delta for the opponent. -/
def b_addtl_formula (a b : LadderPlayer) (r : DiscordLadderResult) : Int :=
  if r.player_victory then 1
  else if r.draw then 1
  else
    (if a.ladder_points > b.ladder_points then
      ceilHalf (a.ladder_points - b.ladder_points) else 0) + 2

def cfg2024 : LadderConfig :=
  { start_date := 1704067200, end_date := 1735689600
    period := LadderPeriod.WEEKLY, games_per_period := 1 }

def rAB (t : Int) : DiscordLadderResult :=
  { player := "A", opponent := "B", time := t, player_victory := true
    draw := false, vp_player := 0, vp_opponent := 0, league_name := "L" }

/-- Concrete ledgers used by witness theorems: a mid-league pair who have
already played each other this period. -/
def aW : LadderPlayer :=
  { name := "A", games_played := 3, games_won := 1, games_drawn := 1,
    opponents_played := ["B"], total_vp := 5, ladder_points := 13,
    match_periods := [(0, 1)] }

/-- Concrete opponent ledger for witness theorems. -/
def bW : LadderPlayer :=
  { name := "B", games_played := 4, games_won := 2, games_drawn := 0,
    opponents_played := ["A"], total_vp := 7, ladder_points := 12,
    match_periods := [(0, 2)] }

/-- A result between `aW` and `bW` on the league's first day. -/
def rW : DiscordLadderResult := rAB 1704067260

/-- Channel environment for dispatcher examples: channel 1 is of an
unsendable kind, channels 2 and 3 are text channels, everything else is
not found. -/
def envW : DiscordEnv :=
  { get_channel := fun id =>
      if id = 1 then some ChannelKind.otherKind
      else if id = 2 then some ChannelKind.textChannel
      else if id = 3 then some ChannelKind.textChannel
      else none }

/-- A due job whose channel is of an unsendable kind (raises). -/
def jobBad : MessageJob :=
  { id := "a", timestamp := 100, channel_id := 1, content := "x", files := [] }

/-- A due job whose channel is a text channel (would send). -/
def jobGood : MessageJob :=
  { id := "b", timestamp := 100, channel_id := 2, content := "y", files := [] }

/-- A due job whose channel lookup resolves to nothing. -/
def jobNoChan : MessageJob :=
  { id := "c", timestamp := 50, channel_id := 9, content := "z", files := [] }

/-- Dispatcher state holding the failing job followed by a healthy one. -/
def stW : HandlerState :=
  { jobs := [("a", jobBad), ("b", jobGood)], pending := ["a", "b"],
    finished := [], sent := [] }

/-- Dispatcher state holding only the job with the unresolvable channel. -/
def stNoChan : HandlerState :=
  { jobs := [("c", jobNoChan)], pending := ["c"], finished := [], sent := [] }

/-- A league ready to post: gates can pass, nothing posted yet, one
result in the log, sendable channel 3. -/
def lgReady : LeagueState :=
  { league_name := "L", config := cfg2024, posting_day := 1, channel_id := 3,
    record := [], results := [rAB 1704067200] }

/-- The same league with an empty result log. -/
def lgEmpty : LeagueState :=
  { league_name := "L", config := cfg2024, posting_day := 1, channel_id := 3,
    record := [], results := [] }

/-- A league whose window is the interval from 0 to 100. -/
def lgShort : LeagueState :=
  { league_name := "EndLeague",
    config := { start_date := 0, end_date := 100,
                period := LadderPeriod.WEEKLY, games_per_period := 1 },
    posting_day := 1, channel_id := 5, record := [], results := [] }

/-- An instant inside the 2024 league window with all time gates open
(Friday 17:00 UTC, ISO week 1). -/
def nowW1 : Instant := { t := 1704470400, weekday := 5, hour := 16, isoWeek := 1 }

/-- A later instant in the same ISO week (Saturday 18:00 UTC). -/
def nowW2 : Instant := { t := 1704556800, weekday := 6, hour := 18, isoWeek := 1 }

/-- A league whose destination channel is of an unsendable kind, so its
standings post raises. -/
def lgBadChan : LeagueState :=
  { league_name := "M", config := cfg2024, posting_day := 1, channel_id := 1,
    record := [], results := [rAB 1704067200] }

/-! ### Theorems -/

theorem alistLookup_append_of_none {α β : Type} [DecidableEq α]
    (m l : List (α × β)) (k : α) (h : alistLookup m k = none) :
    alistLookup (m ++ l) k = alistLookup l k := by
  induction m with
  | nil => simp
  | cons p rest ih =>
    simp only [alistLookup, List.cons_append] at *
    by_cases hk : k = p.1
    · simp [hk] at h
    · simp only [hk, if_neg] at h ⊢
      exact ih h

theorem alistLookup_append_of_some {α β : Type} [DecidableEq α]
    (m l : List (α × β)) (k : α) (v : β) (h : alistLookup m k = some v) :
    alistLookup (m ++ l) k = some v := by
  induction m with
  | nil => simp [alistLookup] at h
  | cons p rest ih =>
    simp only [alistLookup, List.cons_append] at *
    by_cases hk : k = p.1
    · simpa [hk] using h
    · simp only [hk, if_neg] at h ⊢
      exact ih h

theorem alistLookup_map_replace {α β : Type} [DecidableEq α]
    (m : List (α × β)) (k k' : α) (v : β) :
    alistLookup (m.map (fun p => if p.1 = k then (k, v) else p)) k' =
      if k' = k then (if (alistLookup m k).isSome then some v else none)
      else alistLookup m k' := by
  induction m with
  | nil => by_cases h : k' = k <;> simp [alistLookup, h]
  | cons p rest ih =>
    simp only [List.map_cons, alistLookup]
    by_cases hp : p.1 = k
    · by_cases hk' : k' = k
      · simp [alistLookup, hp, hk']
      · have h1 : ¬(k' = p.1) := fun hc => hk' (hc.trans hp)
        simp [alistLookup, hp, hk', h1, ih]
    · by_cases h1 : k' = p.1
      · have hk' : ¬(k' = k) := fun hc => hp (h1.symm.trans hc)
        simp [alistLookup, hp, h1, hk']
      · by_cases hk' : k' = k
        · subst hk'
          simp only [if_pos rfl] at ih
          simp [alistLookup, hp, h1, ih]
        · simp [alistLookup, hp, h1, hk', ih]

theorem alistLookup_insert_self {α β : Type} [DecidableEq α]
    (m : List (α × β)) (k : α) (v : β) :
    alistLookup (alistInsert m k v) k = some v := by
  by_cases h : (alistLookup m k).isSome
  · simp [alistInsert, h, alistLookup_map_replace]
  · have hnone : alistLookup m k = none := by
      cases hm : alistLookup m k with
      | none => rfl
      | some w => simp [hm] at h
    have hins : alistInsert m k v = m ++ [(k, v)] := by
      simp [alistInsert, hnone]
    rw [hins, alistLookup_append_of_none m _ k hnone]
    simp [alistLookup]

theorem alistLookup_insert_ne {α β : Type} [DecidableEq α]
    (m : List (α × β)) (k k' : α) (v : β) (h : k' ≠ k) :
    alistLookup (alistInsert m k v) k' = alistLookup m k' := by
  by_cases hs : (alistLookup m k).isSome
  · simp [alistInsert, hs, alistLookup_map_replace, h]
  · have hnone : alistLookup m k = none := by
      cases hm : alistLookup m k with
      | none => rfl
      | some w => simp [hm] at hs
    have hins : alistInsert m k v = m ++ [(k, v)] := by
      simp [alistInsert, hnone]
    rw [hins]
    cases hm : alistLookup m k' with
    | some w => exact alistLookup_append_of_some m _ k' w hm
    | none =>
      rw [alistLookup_append_of_none m _ k' hm]
      simp [alistLookup, h]

/-! ### Ladder core (src/ladder/ladder.py) -/

theorem digitVal_digitChar (d : Nat) (h : d < 10) :
    digitVal (digitChar d) = some d := by
  interval_cases d <;> decide

theorem digitChar_ne_dash (d : Nat) (h : d < 10) : digitChar d ≠ Char.ofNat 45 := by
  interval_cases d <;> decide

theorem digitsRevVal_natDigitsRev :
    ∀ fuel n : Nat, n ≤ fuel → digitsRevVal (natDigitsRev fuel n) = some n := by
  intro fuel
  induction fuel with
  | zero =>
    intro n hn
    interval_cases n
    simp [natDigitsRev, digitsRevVal]
  | succ f ih =>
    intro n hn
    by_cases h0 : n = 0
    · subst h0
      simp [natDigitsRev, digitsRevVal]
    · have hmod : n % 10 < 10 := Nat.mod_lt _ (by norm_num)
      have hdiv : n / 10 ≤ f := by
        have hlt : n / 10 < n := Nat.div_lt_self (Nat.pos_of_ne_zero h0) (by norm_num)
        omega
      have hunf : natDigitsRev (f + 1) n =
          digitChar (n % 10) :: natDigitsRev f (n / 10) := by
        simp [natDigitsRev, h0]
      rw [hunf]
      simp only [digitsRevVal]
      rw [digitVal_digitChar _ hmod, ih _ hdiv]
      show some (n % 10 + 10 * (n / 10)) = some n
      congr 1
      omega

theorem natDigitsRev_digit :
    ∀ fuel n : Nat, ∀ c ∈ natDigitsRev fuel n, ∃ d, d < 10 ∧ c = digitChar d := by
  intro fuel
  induction fuel with
  | zero => intro n c hc; simp [natDigitsRev] at hc
  | succ f ih =>
    intro n c hc
    by_cases h0 : n = 0
    · subst h0; simp [natDigitsRev] at hc
    · simp [natDigitsRev, h0] at hc
      rcases hc with hc | hc
      · exact ⟨n % 10, Nat.mod_lt _ (by norm_num), hc⟩
      · exact ih _ c hc

theorem natDigitsRev_ne_nil (fuel n : Nat) (h0 : n ≠ 0) (hf : 0 < fuel) :
    natDigitsRev fuel n ≠ [] := by
  cases fuel with
  | zero => omega
  | succ f => simp [natDigitsRev, h0]

theorem parseIntChars_natStr (n : Nat) :
    parseIntChars (natStr n).data = some (n : Int) := by
  by_cases h0 : n = 0
  · subst h0; decide
  · have hl : (natStr n).data = (natDigitsRev n n).reverse := by
      simp [natStr, h0]
    have hne : (natDigitsRev n n).reverse ≠ [] := by
      simp only [ne_eq, List.reverse_eq_nil_iff]
      exact natDigitsRev_ne_nil n n h0 (Nat.pos_of_ne_zero h0)
    rw [hl]
    cases hrev : (natDigitsRev n n).reverse with
    | nil => exact absurd hrev hne
    | cons c cs =>
      have hcmem : c ∈ natDigitsRev n n := by
        have : c ∈ (natDigitsRev n n).reverse := by rw [hrev]; exact List.mem_cons_self c cs
        simpa using this
      obtain ⟨d, hd, hcd⟩ := natDigitsRev_digit n n c hcmem
      have hdash : ¬(c = '-') := by
        rw [hcd]
        exact digitChar_ne_dash d hd
      have hback : (c :: cs).reverse = natDigitsRev n n := by
        rw [← hrev, List.reverse_reverse]
      simp only [parseIntChars]
      rw [if_neg hdash, hback, digitsRevVal_natDigitsRev n n (le_refl n)]
      rfl

theorem parseIntStr_intStr (i : Int) : parseIntStr (intStr i) = some i := by
  cases i with
  | ofNat n =>
    simpa [parseIntStr, intStr] using parseIntChars_natStr n
  | negSucc n =>
    have hdata : (intStr (Int.negSucc n)).data = '-' :: (natStr (n + 1)).data := by
      simp [intStr, String.data_append]
    rw [parseIntStr, hdata]
    have hne : (natStr (n + 1)).data ≠ [] := by
      have hd : (natStr (n + 1)).data = (natDigitsRev (n + 1) (n + 1)).reverse := by
        simp [natStr]
      rw [hd]
      simp only [ne_eq, List.reverse_eq_nil_iff]
      exact natDigitsRev_ne_nil (n + 1) (n + 1) (Nat.succ_ne_zero n) (Nat.succ_pos n)
    have hrevval : digitsRevVal (natStr (n + 1)).data.reverse = some (n + 1) := by
      have hl : (natStr (n + 1)).data = (natDigitsRev (n + 1) (n + 1)).reverse := by
        simp [natStr]
      rw [hl, List.reverse_reverse]
      exact digitsRevVal_natDigitsRev (n + 1) (n + 1) (le_refl _)
    simp only [parseIntChars, if_true]
    rw [if_neg hne, hrevval]
    rfl

theorem parseBoolStr_boolStr (b : Bool) : parseBoolStr (boolStr b) = some b := by
  cases b <;> decide

theorem parse_serialize_result (r : DiscordLadderResult) :
    parse_result_row (serialize_result r) = some r := by
  obtain ⟨p, o, t, pv, d, v1, v2, ln⟩ := r
  simp [serialize_result, parse_result_row, parseIntStr_intStr, parseBoolStr_boolStr]

theorem read_results_map_serialize (rs : List DiscordLadderResult) :
    read_results (rs.map serialize_result) = some rs := by
  induction rs with
  | nil => rfl
  | cons r rest ih =>
    simp only [read_results, List.map_cons, List.mapM_cons] at *
    rw [parse_serialize_result]
    simp only [Option.some_bind, ih, Option.pure_def]
    simp [ih]

/-! ### League manager posting gate (src/ladder/manager.py) and
client-side league window (src/client.py)

`datetime.now(UTC)` is modelled as an `Instant`: the epoch second `t`
together with the calendar attributes the code reads off it
(`date().isoweekday()`, `hour`, `isocalendar()[1]`). -/

theorem updateTail_fst_lp (a3 b3 : LadderPlayer) (aA bA : Int)
    (ap bp : Bool) (r : DiscordLadderResult) (p : Int) :
    (updateTail a3 b3 aA bA ap bp r p).1.ladder_points =
      a3.ladder_points + matchup_bonus a3 r + (if ap then 0 else aA) := by
  unfold updateTail matchup_bonus
  by_cases hnew : r.opponent ∈ a3.opponents_played <;>
    by_cases hap : ap <;> by_cases hbp : bp <;>
    simp [hnew, hap, hbp]

theorem updateTail_snd_lp (a3 b3 : LadderPlayer) (aA bA : Int)
    (ap bp : Bool) (r : DiscordLadderResult) (p : Int) :
    (updateTail a3 b3 aA bA ap bp r p).2.ladder_points =
      b3.ladder_points + matchup_bonus a3 r + (if bp then 0 else bA) := by
  unfold updateTail matchup_bonus
  by_cases hnew : r.opponent ∈ a3.opponents_played <;>
    by_cases hap : ap <;> by_cases hbp : bp <;>
    simp [hnew, hap, hbp]

theorem updateTail_fst_counts (a3 b3 : LadderPlayer) (aA bA : Int)
    (ap bp : Bool) (r : DiscordLadderResult) (p : Int) :
    (updateTail a3 b3 aA bA ap bp r p).1.games_played = a3.games_played
    ∧ (updateTail a3 b3 aA bA ap bp r p).1.games_won = a3.games_won
    ∧ (updateTail a3 b3 aA bA ap bp r p).1.games_drawn = a3.games_drawn
    ∧ (updateTail a3 b3 aA bA ap bp r p).1.total_vp = a3.total_vp
    ∧ (updateTail a3 b3 aA bA ap bp r p).1.name = a3.name := by
  unfold updateTail
  by_cases hnew : r.opponent ∈ a3.opponents_played <;>
    by_cases hap : ap <;> by_cases hbp : bp <;>
    simp [hnew, hap, hbp]

theorem updateTail_snd_counts (a3 b3 : LadderPlayer) (aA bA : Int)
    (ap bp : Bool) (r : DiscordLadderResult) (p : Int) :
    (updateTail a3 b3 aA bA ap bp r p).2.games_played = b3.games_played
    ∧ (updateTail a3 b3 aA bA ap bp r p).2.games_won = b3.games_won
    ∧ (updateTail a3 b3 aA bA ap bp r p).2.games_drawn = b3.games_drawn
    ∧ (updateTail a3 b3 aA bA ap bp r p).2.total_vp = b3.total_vp
    ∧ (updateTail a3 b3 aA bA ap bp r p).2.name = b3.name := by
  unfold updateTail
  by_cases hnew : r.opponent ∈ a3.opponents_played <;>
    by_cases hap : ap <;> by_cases hbp : bp <;>
    simp [hnew, hap, hbp]

theorem updateTail_fst_pc (a3 b3 : LadderPlayer) (aA bA : Int)
    (ap bp : Bool) (r : DiscordLadderResult) (p : Int) :
    periodCount (updateTail a3 b3 aA bA ap bp r p).1 p =
      (if ap then periodCount a3 p else 0) + 1 := by
  unfold updateTail periodCount
  by_cases hnew : r.opponent ∈ a3.opponents_played <;>
    by_cases hap : ap <;> by_cases hbp : bp <;>
    simp [hnew, hap, hbp, alistLookup_insert_self]

theorem updateTail_snd_pc (a3 b3 : LadderPlayer) (aA bA : Int)
    (ap bp : Bool) (r : DiscordLadderResult) (p : Int) :
    periodCount (updateTail a3 b3 aA bA ap bp r p).2 p =
      (if bp then periodCount b3 p else 0) + 1 := by
  unfold updateTail periodCount
  by_cases hnew : r.opponent ∈ a3.opponents_played <;>
    by_cases hap : ap <;> by_cases hbp : bp <;>
    simp [hnew, hap, hbp, alistLookup_insert_self]

theorem updateTail_fst_gp (a3 b3 : LadderPlayer) (aA bA : Int) (ap bp : Bool)
    (r : DiscordLadderResult) (p : Int) :
    (updateTail a3 b3 aA bA ap bp r p).1.games_played = a3.games_played :=
  (updateTail_fst_counts a3 b3 aA bA ap bp r p).1

theorem updateTail_fst_gw (a3 b3 : LadderPlayer) (aA bA : Int) (ap bp : Bool)
    (r : DiscordLadderResult) (p : Int) :
    (updateTail a3 b3 aA bA ap bp r p).1.games_won = a3.games_won :=
  (updateTail_fst_counts a3 b3 aA bA ap bp r p).2.1

theorem updateTail_fst_gd (a3 b3 : LadderPlayer) (aA bA : Int) (ap bp : Bool)
    (r : DiscordLadderResult) (p : Int) :
    (updateTail a3 b3 aA bA ap bp r p).1.games_drawn = a3.games_drawn :=
  (updateTail_fst_counts a3 b3 aA bA ap bp r p).2.2.1

theorem updateTail_fst_vp (a3 b3 : LadderPlayer) (aA bA : Int) (ap bp : Bool)
    (r : DiscordLadderResult) (p : Int) :
    (updateTail a3 b3 aA bA ap bp r p).1.total_vp = a3.total_vp :=
  (updateTail_fst_counts a3 b3 aA bA ap bp r p).2.2.2.1

theorem updateTail_fst_name (a3 b3 : LadderPlayer) (aA bA : Int) (ap bp : Bool)
    (r : DiscordLadderResult) (p : Int) :
    (updateTail a3 b3 aA bA ap bp r p).1.name = a3.name :=
  (updateTail_fst_counts a3 b3 aA bA ap bp r p).2.2.2.2

theorem updateTail_snd_gp (a3 b3 : LadderPlayer) (aA bA : Int) (ap bp : Bool)
    (r : DiscordLadderResult) (p : Int) :
    (updateTail a3 b3 aA bA ap bp r p).2.games_played = b3.games_played :=
  (updateTail_snd_counts a3 b3 aA bA ap bp r p).1

theorem updateTail_snd_gw (a3 b3 : LadderPlayer) (aA bA : Int) (ap bp : Bool)
    (r : DiscordLadderResult) (p : Int) :
    (updateTail a3 b3 aA bA ap bp r p).2.games_won = b3.games_won :=
  (updateTail_snd_counts a3 b3 aA bA ap bp r p).2.1

theorem updateTail_snd_gd (a3 b3 : LadderPlayer) (aA bA : Int) (ap bp : Bool)
    (r : DiscordLadderResult) (p : Int) :
    (updateTail a3 b3 aA bA ap bp r p).2.games_drawn = b3.games_drawn :=
  (updateTail_snd_counts a3 b3 aA bA ap bp r p).2.2.1

theorem updateTail_snd_vp (a3 b3 : LadderPlayer) (aA bA : Int) (ap bp : Bool)
    (r : DiscordLadderResult) (p : Int) :
    (updateTail a3 b3 aA bA ap bp r p).2.total_vp = b3.total_vp :=
  (updateTail_snd_counts a3 b3 aA bA ap bp r p).2.2.2.1

theorem updateTail_snd_name (a3 b3 : LadderPlayer) (aA bA : Int) (ap bp : Bool)
    (r : DiscordLadderResult) (p : Int) :
    (updateTail a3 b3 aA bA ap bp r p).2.name = b3.name :=
  (updateTail_snd_counts a3 b3 aA bA ap bp r p).2.2.2.2

theorem updateCore_fst (a b : LadderPlayer) (r : DiscordLadderResult) (p : Int) :
    (updateCore a b r p).1.ladder_points =
      a.ladder_points + matchup_bonus a r +
        (if 0 < periodCount a p then 0 else a_addtl_formula a b r)
    ∧ (updateCore a b r p).1.games_played = a.games_played + 1
    ∧ (updateCore a b r p).1.games_won =
        a.games_won + (if r.player_victory then 1 else 0)
    ∧ (updateCore a b r p).1.games_drawn =
        a.games_drawn + (if r.player_victory = false ∧ r.draw = true then 1 else 0)
    ∧ (updateCore a b r p).1.total_vp = a.total_vp + r.vp_player
    ∧ (updateCore a b r p).1.name = a.name
    ∧ periodCount (updateCore a b r p).1 p =
        (if 0 < periodCount a p then periodCount a p else 0) + 1 := by
  cases hv : r.player_victory
  · cases hd : r.draw
    · simp only [updateCore, hv, hd, Bool.false_eq_true, if_false]
      simp only [updateTail_fst_lp, updateTail_fst_gp, updateTail_fst_gw,
                 updateTail_fst_gd, updateTail_fst_vp, updateTail_fst_name,
                 updateTail_fst_pc]
      simp [matchup_bonus, a_addtl_formula, hv, hd, periodCount]
    · simp only [updateCore, hv, hd, Bool.false_eq_true, if_false, if_true]
      simp only [updateTail_fst_lp, updateTail_fst_gp, updateTail_fst_gw,
                 updateTail_fst_gd, updateTail_fst_vp, updateTail_fst_name,
                 updateTail_fst_pc]
      simp [matchup_bonus, a_addtl_formula, hv, hd, periodCount]
  · simp only [updateCore, hv, if_true]
    simp only [updateTail_fst_lp, updateTail_fst_gp, updateTail_fst_gw,
               updateTail_fst_gd, updateTail_fst_vp, updateTail_fst_name,
               updateTail_fst_pc]
    simp [matchup_bonus, a_addtl_formula, hv, periodCount]

theorem updateCore_snd (a b : LadderPlayer) (r : DiscordLadderResult) (p : Int) :
    (updateCore a b r p).2.ladder_points =
      b.ladder_points + matchup_bonus a r +
        (if 0 < periodCount b p then 0 else b_addtl_formula a b r)
    ∧ (updateCore a b r p).2.games_played = b.games_played + 1
    ∧ (updateCore a b r p).2.games_won =
        b.games_won + (if r.player_victory = false ∧ r.draw = false then 1 else 0)
    ∧ (updateCore a b r p).2.games_drawn =
        b.games_drawn + (if r.player_victory = false ∧ r.draw = true then 1 else 0)
    ∧ (updateCore a b r p).2.total_vp = b.total_vp + r.vp_opponent
    ∧ (updateCore a b r p).2.name = b.name
    ∧ periodCount (updateCore a b r p).2 p =
        (if 0 < periodCount b p then periodCount b p else 0) + 1 := by
  cases hv : r.player_victory
  · cases hd : r.draw
    · simp only [updateCore, hv, hd, Bool.false_eq_true, if_false]
      simp only [updateTail_snd_lp, updateTail_snd_gp, updateTail_snd_gw,
                 updateTail_snd_gd, updateTail_snd_vp, updateTail_snd_name,
                 updateTail_snd_pc]
      simp [matchup_bonus, b_addtl_formula, hv, hd, periodCount]
    · simp only [updateCore, hv, hd, Bool.false_eq_true, if_false, if_true]
      simp only [updateTail_snd_lp, updateTail_snd_gp, updateTail_snd_gw,
                 updateTail_snd_gd, updateTail_snd_vp, updateTail_snd_name,
                 updateTail_snd_pc]
      simp [matchup_bonus, b_addtl_formula, hv, hd, periodCount]
  · simp only [updateCore, hv, if_true]
    simp only [updateTail_snd_lp, updateTail_snd_gp, updateTail_snd_gw,
               updateTail_snd_gd, updateTail_snd_vp, updateTail_snd_name,
               updateTail_snd_pc]
    simp [matchup_bonus, b_addtl_formula, hv, periodCount]

/-! ### Monotonicity of ladder points -/

theorem ceilHalf_nonneg (g : Int) (hg : 0 < g) : 0 ≤ ceilHalf g :=
  Int.fdiv_nonneg (by omega) (by omega)

theorem matchup_bonus_nonneg (a : LadderPlayer) (r : DiscordLadderResult) :
    0 ≤ matchup_bonus a r := by
  unfold matchup_bonus
  split_ifs <;> omega

theorem a_addtl_formula_nonneg (a b : LadderPlayer) (r : DiscordLadderResult) :
    0 ≤ a_addtl_formula a b r := by
  unfold a_addtl_formula
  split_ifs with h1 h2
  · have hc := ceilHalf_nonneg (b.ladder_points - a.ladder_points) (by omega)
    omega
  · omega
  · omega

theorem b_addtl_formula_nonneg (a b : LadderPlayer) (r : DiscordLadderResult) :
    0 ≤ b_addtl_formula a b r := by
  unfold b_addtl_formula
  split_ifs with h1 h2 h3
  · omega
  · omega
  · have hc := ceilHalf_nonneg (a.ladder_points - b.ladder_points) (by omega)
    omega
  · omega

theorem updateCore_lp_mono (a b : LadderPlayer) (r : DiscordLadderResult) (p : Int) :
    a.ladder_points ≤ (updateCore a b r p).1.ladder_points
    ∧ b.ladder_points ≤ (updateCore a b r p).2.ladder_points := by
  constructor
  · rw [(updateCore_fst a b r p).1]
    have hmb := matchup_bonus_nonneg a r
    have hf := a_addtl_formula_nonneg a b r
    split_ifs <;> omega
  · rw [(updateCore_snd a b r p).1]
    have hmb := matchup_bonus_nonneg a r
    have hf := b_addtl_formula_nonneg a b r
    split_ifs <;> omega

theorem updateSelfCore_lp_mono (p : LadderPlayer) (r : DiscordLadderResult)
    (per : Int) : p.ladder_points ≤ (updateSelfCore p r per).ladder_points := by
  unfold updateSelfCore
  cases hv : r.player_victory <;> cases hd : r.draw <;>
    by_cases hnew : r.opponent ∈ p.opponents_played <;>
    by_cases hpl : (0 : Int) < (alistLookup p.match_periods per).getD 0 <;>
    simp [hv, hd, hnew, hpl, periodCount] <;> omega

/-- Lazy ledger creation in `compute_standings` preserves existing
lookups. -/
theorem alistLookup_lazy_add (m : List (String × LadderPlayer))
    (k name : String) (pl : LadderPlayer) (h : alistLookup m name = some pl) :
    alistLookup (if (alistLookup m k).isSome then m
      else m ++ [(k, LadderPlayer.init k INITIAL_POINTS)]) name = some pl := by
  split_ifs with hs
  · exact h
  · exact alistLookup_append_of_some _ _ _ _ h

theorem extendMap_lookup (m : List (String × LadderPlayer))
    (r : DiscordLadderResult) (name : String) (pl : LadderPlayer)
    (h : alistLookup m name = some pl) :
    alistLookup (extendMap m r) name = some pl := by
  unfold extendMap
  exact alistLookup_lazy_add _ r.opponent name pl
    (alistLookup_lazy_add m r.player name pl h)

/-- `standingsStep` in the aliased case, once the period is known. -/
theorem standingsStep_alias_eq (c : LadderConfig)
    (m : List (String × LadderPlayer)) (r : DiscordLadderResult) (per : Int)
    (hper : period_of_date r.time c = Except.ok per)
    (halias : r.player = r.opponent) :
    standingsStep c m r = Except.ok (alistInsert (extendMap m r) r.player
      (updateSelfCore ((alistLookup (extendMap m r) r.player).getD
        (LadderPlayer.init r.player INITIAL_POINTS)) r per)) := by
  unfold standingsStep update_self
  rw [if_pos halias, hper]
  rfl

/-- `standingsStep` in the two-player case, once the period is known. -/
theorem standingsStep_basic_eq (c : LadderConfig)
    (m : List (String × LadderPlayer)) (r : DiscordLadderResult) (per : Int)
    (hper : period_of_date r.time c = Except.ok per)
    (halias : ¬(r.player = r.opponent)) :
    standingsStep c m r = Except.ok (alistInsert (alistInsert (extendMap m r)
      r.player (updateCore
        ((alistLookup (extendMap m r) r.player).getD
          (LadderPlayer.init r.player INITIAL_POINTS))
        ((alistLookup (extendMap m r) r.opponent).getD
          (LadderPlayer.init r.opponent INITIAL_POINTS)) r per).1)
      r.opponent (updateCore
        ((alistLookup (extendMap m r) r.player).getD
          (LadderPlayer.init r.player INITIAL_POINTS))
        ((alistLookup (extendMap m r) r.opponent).getD
          (LadderPlayer.init r.opponent INITIAL_POINTS)) r per).2) := by
  unfold standingsStep update_players_basic
  rw [if_neg halias, hper]
  rfl

/-- `standingsStep` fails exactly when the period computation fails. -/
theorem standingsStep_error (c : LadderConfig)
    (m : List (String × LadderPlayer)) (r : DiscordLadderResult) (e : String)
    (hper : period_of_date r.time c = Except.error e) :
    standingsStep c m r = Except.error e := by
  unfold standingsStep update_self update_players_basic
  rw [hper]
  by_cases halias : r.player = r.opponent
  · rw [if_pos halias]
    rfl
  · rw [if_neg halias]
    rfl

theorem standingsStep_lookup_mono (c : LadderConfig)
    (m : List (String × LadderPlayer)) (r : DiscordLadderResult)
    (m2 : List (String × LadderPlayer)) (h : standingsStep c m r = Except.ok m2) :
    ∀ name pl, alistLookup m name = some pl →
      ∃ pl2, alistLookup m2 name = some pl2 ∧ pl.ladder_points ≤ pl2.ladder_points := by
  intro name pl hlk
  have hlk2 : alistLookup (extendMap m r) name = some pl :=
    extendMap_lookup m r name pl hlk
  cases hper : period_of_date r.time c with
  | error e =>
    rw [standingsStep_error c m r e hper] at h
    exact absurd h (by simp)
  | ok per =>
    by_cases halias : r.player = r.opponent
    · rw [standingsStep_alias_eq c m r per hper halias] at h
      injection h with h2
      subst h2
      by_cases hname : name = r.player
      · subst hname
        refine ⟨_, alistLookup_insert_self _ _ _, ?_⟩
        rw [hlk2]
        exact updateSelfCore_lp_mono pl r per
      · refine ⟨pl, ?_, le_refl _⟩
        rw [alistLookup_insert_ne _ _ _ _ hname]
        exact hlk2
    · rw [standingsStep_basic_eq c m r per hper halias] at h
      injection h with h2
      subst h2
      by_cases hname : name = r.opponent
      · subst hname
        refine ⟨_, alistLookup_insert_self _ _ _, ?_⟩
        rw [hlk2]
        exact (updateCore_lp_mono _ pl r per).2
      · by_cases hname2 : name = r.player
        · subst hname2
          refine ⟨(updateCore
              ((alistLookup (extendMap m r) r.player).getD
                (LadderPlayer.init r.player INITIAL_POINTS))
              ((alistLookup (extendMap m r) r.opponent).getD
                (LadderPlayer.init r.opponent INITIAL_POINTS)) r per).1, ?_, ?_⟩
          · rw [alistLookup_insert_ne _ _ _ _ hname]
            exact alistLookup_insert_self _ _ _
          · rw [hlk2]
            exact (updateCore_lp_mono pl _ r per).1
        · refine ⟨pl, ?_, le_refl _⟩
          rw [alistLookup_insert_ne _ _ _ _ hname, alistLookup_insert_ne _ _ _ _ hname2]
          exact hlk2


theorem update_players_basic_ok (a b : LadderPlayer) (r : DiscordLadderResult)
    (c : LadderConfig) (per : Int)
    (hper : period_of_date r.time c = Except.ok per) :
    update_players_basic a b r c = Except.ok (updateCore a b r per) := by
  unfold update_players_basic
  rw [hper]
  rfl

theorem update_players_basic_err (a b : LadderPlayer) (r : DiscordLadderResult)
    (c : LadderConfig) (e : String)
    (hper : period_of_date r.time c = Except.error e) :
    update_players_basic a b r c = Except.error e := by
  unfold update_players_basic
  rw [hper]
  rfl

theorem update_self_ok (p : LadderPlayer) (r : DiscordLadderResult)
    (c : LadderConfig) (per : Int)
    (hper : period_of_date r.time c = Except.ok per) :
    update_self p r c = Except.ok (updateSelfCore p r per) := by
  unfold update_self
  rw [hper]
  rfl

theorem update_self_err (p : LadderPlayer) (r : DiscordLadderResult)
    (c : LadderConfig) (e : String)
    (hper : period_of_date r.time c = Except.error e) :
    update_self p r c = Except.error e := by
  unfold update_self
  rw [hper]
  rfl

/-- Claim C1: in the standings fold, only the first result touching a
(player, period-index) pair changes that player's ladder points via the
play/win/gap bonuses.  For any result whose period resolves to `p`:
whenever a side already has a positive scored-game count for `p`, the
update changes that side's ladder points only by the new-matchup bonus,
while still incrementing games-played, victory points, the win/draw
count matching the outcome, and the period counter; whenever a side has
no scored game for `p` yet, the full outcome/play delta is applied on
top of the matchup bonus. -/
theorem update_players_basic_period_gate (a b : LadderPlayer)
    (r : DiscordLadderResult) (c : LadderConfig) (p : Int)
    (hp : period_of_date r.time c = Except.ok p) :
    update_players_basic a b r c = Except.ok (updateCore a b r p)
    ∧ (0 < periodCount a p →
        ((updateCore a b r p).1.ladder_points = a.ladder_points + matchup_bonus a r
         ∧ (updateCore a b r p).1.games_played = a.games_played + 1
         ∧ (updateCore a b r p).1.total_vp = a.total_vp + r.vp_player
         ∧ (updateCore a b r p).1.games_won =
             a.games_won + (if r.player_victory then 1 else 0)
         ∧ (updateCore a b r p).1.games_drawn =
             a.games_drawn + (if r.player_victory = false ∧ r.draw = true then 1 else 0)
         ∧ periodCount (updateCore a b r p).1 p = periodCount a p + 1))
    ∧ (periodCount a p ≤ 0 →
        (updateCore a b r p).1.ladder_points =
          a.ladder_points + matchup_bonus a r + a_addtl_formula a b r)
    ∧ (0 < periodCount b p →
        ((updateCore a b r p).2.ladder_points = b.ladder_points + matchup_bonus a r
         ∧ (updateCore a b r p).2.games_played = b.games_played + 1
         ∧ (updateCore a b r p).2.total_vp = b.total_vp + r.vp_opponent
         ∧ (updateCore a b r p).2.games_won =
             b.games_won + (if r.player_victory = false ∧ r.draw = false then 1 else 0)
         ∧ (updateCore a b r p).2.games_drawn =
             b.games_drawn + (if r.player_victory = false ∧ r.draw = true then 1 else 0)
         ∧ periodCount (updateCore a b r p).2 p = periodCount b p + 1))
    ∧ (periodCount b p ≤ 0 →
        (updateCore a b r p).2.ladder_points =
          b.ladder_points + matchup_bonus a r + b_addtl_formula a b r) := by
  obtain ⟨halp, hagp, hagw, hagd, havp, haname, hapc⟩ := updateCore_fst a b r p
  obtain ⟨hblp, hbgp, hbgw, hbgd, hbvp, hbname, hbpc⟩ := updateCore_snd a b r p
  refine ⟨update_players_basic_ok a b r c p hp, ?_, ?_, ?_, ?_⟩
  · intro hpc
    refine ⟨?_, hagp, havp, hagw, hagd, ?_⟩
    · rw [halp, if_pos hpc]
      omega
    · rw [hapc, if_pos hpc]
  · intro hpc
    rw [halp, if_neg (by omega)]
  · intro hpc
    refine ⟨?_, hbgp, hbvp, hbgw, hbgd, ?_⟩
    · rw [hblp, if_pos hpc]
      omega
    · rw [hbpc, if_pos hpc]
  · intro hpc
    rw [hblp, if_neg (by omega)]

/-- Witness for C1: with both counters for period 0 positive, a further
win changes each ladder total only by the (here zero) matchup bonus and
moves the period counters. -/
theorem update_players_basic_period_gate_check :
    (0 : Int) < periodCount aW 0
    ∧ (updateCore aW bW rW 0).1.ladder_points = aW.ladder_points + matchup_bonus aW rW
    ∧ periodCount (updateCore aW bW rW 0).1 0 = periodCount aW 0 + 1
    ∧ (updateCore aW bW rW 0).2.ladder_points = bW.ladder_points + matchup_bonus aW rW := by
  have h := update_players_basic_period_gate aW bW rW cfg2024 0 (by rfl)
  have h1 := h.2.1 (by decide)
  have h2 := h.2.2.2.1 (by decide)
  exact ⟨by decide, h1.1, h1.2.2.2.2.2, h2.1⟩

/-- Claim C3: ladder points never decrease under the default update rule:
for any two ledgers (also for a self-matched single ledger), a successful
update yields ladder totals at least as large, and one step of the
standings fold never decreases the recorded ladder points of any player
already in the map — hence monotone non-decrease across any sequence of
updates. -/
theorem ladder_points_monotone :
    (∀ (a b : LadderPlayer) (r : DiscordLadderResult) (c : LadderConfig)
        (ab2 : LadderPlayer × LadderPlayer),
        update_players_basic a b r c = Except.ok ab2 →
        a.ladder_points ≤ ab2.1.ladder_points ∧ b.ladder_points ≤ ab2.2.ladder_points)
    ∧ (∀ (p : LadderPlayer) (r : DiscordLadderResult) (c : LadderConfig)
        (p2 : LadderPlayer), update_self p r c = Except.ok p2 →
        p.ladder_points ≤ p2.ladder_points)
    ∧ (∀ (c : LadderConfig) (m m2 : List (String × LadderPlayer))
        (r : DiscordLadderResult), standingsStep c m r = Except.ok m2 →
        ∀ name pl, alistLookup m name = some pl →
          ∃ pl2, alistLookup m2 name = some pl2 ∧
            pl.ladder_points ≤ pl2.ladder_points) := by
  refine ⟨?_, ?_, ?_⟩
  · intro a b r c ab2 h
    cases hper : period_of_date r.time c with
    | error e =>
      rw [update_players_basic_err a b r c e hper] at h
      exact absurd h (by simp)
    | ok per =>
      rw [update_players_basic_ok a b r c per hper] at h
      injection h with h2
      subst h2
      exact updateCore_lp_mono a b r per
  · intro p r c p2 h
    cases hper : period_of_date r.time c with
    | error e =>
      rw [update_self_err p r c e hper] at h
      exact absurd h (by simp)
    | ok per =>
      rw [update_self_ok p r c per hper] at h
      injection h with h2
      subst h2
      exact updateSelfCore_lp_mono p r per
  · intro c m m2 r h
    exact standingsStep_lookup_mono c m r m2 h

/-- Witness for C3: a concrete successful update does not decrease either
ladder total. -/
theorem ladder_points_monotone_check :
    aW.ladder_points ≤ (updateCore aW bW rW 0).1.ladder_points
    ∧ bW.ladder_points ≤ (updateCore aW bW rW 0).2.ladder_points := by
  exact ladder_points_monotone.1 aW bW rW cfg2024 (updateCore aW bW rW 0) (by rfl)

/-- Claim C4: for a weekly config the period calculator returns
`floor((t - start_date) in days) mod 7`, its value lies in 0..6, and it
is periodic with period 7 days; for any other period value it fails with
the unsupported-period error. -/
theorem period_of_date_spec (t : Int) (c : LadderConfig) :
    (c.period = LadderPeriod.WEEKLY →
      period_of_date t c = Except.ok (((t - c.start_date).fdiv 86400) % 7)
      ∧ (∀ v, period_of_date t c = Except.ok v → 0 ≤ v ∧ v < 7)
      ∧ period_of_date (t + 7 * 86400) c = period_of_date t c)
    ∧ (c.period ≠ LadderPeriod.WEEKLY →
      period_of_date t c = Except.error unsupportedPeriodMsg) := by
  constructor
  · intro hw
    have heq : period_of_date t c =
        Except.ok (((t - c.start_date).fdiv 86400) % 7) := by
      unfold period_of_date
      rw [if_pos hw]
    refine ⟨heq, ?_, ?_⟩
    · intro v hv
      rw [heq] at hv
      injection hv with hv2
      subst hv2
      constructor
      · exact Int.emod_nonneg _ (by norm_num)
      · exact Int.emod_lt_of_pos _ (by norm_num)
    · unfold period_of_date
      rw [if_pos hw, if_pos hw]
      congr 1
      have h1 : t + 7 * 86400 - c.start_date = (t - c.start_date) + 7 * 86400 := by
        ring
      rw [h1, Int.fdiv_eq_ediv _ (by norm_num), Int.fdiv_eq_ediv _ (by norm_num)]
      omega
  · intro hw
    unfold period_of_date
    rw [if_neg hw]

/-- Witness for C4: the 2024 league config is weekly, so the calculator
is 7-day periodic there; a config with period value 14 fails. -/
theorem period_of_date_spec_check :
    period_of_date (1704067200 + 7 * 86400) cfg2024 = period_of_date 1704067200 cfg2024
    ∧ period_of_date 1704067200
        { start_date := 1704067200, end_date := 1735689600, period := 14,
          games_per_period := 1 } = Except.error unsupportedPeriodMsg := by
  constructor
  · exact ((period_of_date_spec 1704067200 cfg2024).1 (by rfl)).2.2
  · exact (period_of_date_spec 1704067200
      { start_date := 1704067200, end_date := 1735689600, period := 14,
        games_per_period := 1 }).2 (by decide)

/-- Counterexample to C2 as stated: with the league starting Monday
2024-01-01 UTC, A beats B on 2024-01-01 (epoch 1704067200) and again on
Tuesday 2024-01-02 (epoch 1704153600) — the same ISO week — yet A ends
on 15 ladder points, not 13 (the second game falls in period index 1,
not 0, so its outcome bonus is not gated away). -/
theorem second_game_same_week_changes_points :
    (compute_standings [rAB 1704067200, rAB 1704153600] cfg2024).toOption.map
      (fun l => l.map (fun p => (p.name, p.ladder_points, p.games_played)))
      = some [("A", 15, 2), ("B", 13, 2)]
    ∧ ¬((compute_standings [rAB 1704067200, rAB 1704153600] cfg2024).toOption.map
      (fun l => l.map (fun p => (p.name, p.ladder_points, p.games_played)))
      = some [("A", 13, 2), ("B", 12, 2)]) := by
  constructor
  · rfl
  · intro h
    rw [show (compute_standings [rAB 1704067200, rAB 1704153600] cfg2024).toOption.map
      (fun l => l.map (fun p => (p.name, p.ladder_points, p.games_played)))
      = some [("A", 15, 2), ("B", 13, 2)] from rfl] at h
    simp at h

/-- Claim C2 as amended: league starts 2024-01-01 UTC; A beats B on
2024-01-01 → A has 13 (10+2 play/win +1 new matchup), B has 12
(10+1 play +1 new matchup); a second win *at the same period index*
(here one minute later the same day) leaves A on 13 and B on 12 while
games_played for both becomes 2. -/
theorem second_game_same_day_keeps_points :
    (compute_standings [rAB 1704067200] cfg2024).toOption.map
      (fun l => l.map (fun p => (p.name, p.ladder_points, p.games_played)))
      = some [("A", 13, 1), ("B", 12, 1)]
    ∧ (compute_standings [rAB 1704067200, rAB 1704067260] cfg2024).toOption.map
      (fun l => l.map (fun p => (p.name, p.ladder_points, p.games_played)))
      = some [("A", 13, 2), ("B", 12, 2)] := by
  exact ⟨rfl, rfl⟩

/-- Claim C5: storing a result appends its serialized CSV row; reading
the whole log back parses every stored result to exactly the in-memory
value, so recomputing standings from the re-read log agrees with
recomputing them over the original result sequence. -/
theorem store_then_read_roundtrip (prev : List DiscordLadderResult)
    (r : DiscordLadderResult) (c : LadderConfig) :
    read_results (store_result (prev.map serialize_result) r) = some (prev ++ [r])
    ∧ (read_results (store_result (prev.map serialize_result) r)).map
        (fun rs => compute_standings rs c)
      = some (compute_standings (prev ++ [r]) c) := by
  have h : read_results (store_result (prev.map serialize_result) r)
      = some (prev ++ [r]) := by
    unfold store_result
    rw [show prev.map serialize_result ++ [serialize_result r]
      = (prev ++ [r]).map serialize_result by simp]
    exact read_results_map_serialize (prev ++ [r])
  refine ⟨h, ?_⟩
  rw [h]
  rfl

/-- Counterexample to C7 as stated: with a league window ending at
instant 100, the instant `now = 100` (i.e. `now = end_date`) still
offers the league in the submission form and still passes the
standings-posting date gate — the window is closed at `end_date`, not
half-open. -/
theorem league_active_at_end_date :
    active_leagues [lgShort] 100 = ["EndLeague"]
    ∧ in_league_window 100 lgShort.config = true
    ∧ valid_date_check lgShort.config
        { t := 100, weekday := 1, hour := 16, isoWeek := 1 } = true := by
  exact ⟨rfl, rfl, rfl⟩

/-- Claim C7 as amended: the lifecycle window is closed on both ends —
a league is offered in the form iff `start_date ≤ now ≤ end_date`
(including at `end_date`), and the manager's posting date gate accepts
exactly the same closed interval. -/
theorem league_window_inclusive (now : Int) (c : LadderConfig) (i : Instant)
    (ms : List LeagueState) (lg : LeagueState) :
    (in_league_window now c = true ↔ (c.start_date ≤ now ∧ now ≤ c.end_date))
    ∧ (valid_date_check c i = true ↔ (c.start_date ≤ i.t ∧ i.t ≤ c.end_date))
    ∧ (lg ∈ ms → in_league_window now lg.config = true →
        lg.league_name ∈ active_leagues ms now) := by
  refine ⟨?_, ?_, ?_⟩
  · unfold in_league_window
    simp only [Bool.and_eq_true, decide_eq_true_eq, ge_iff_le]
  · unfold valid_date_check
    simp only [Bool.and_eq_true, decide_eq_true_eq, ge_iff_le]
    exact and_comm
  · intro hmem hwin
    have hin : lg.league_name ∈ (ms.filter
        (fun m => in_league_window now m.config)).map (fun m => m.league_name) :=
      List.mem_map_of_mem _ (List.mem_filter.mpr ⟨hmem, hwin⟩)
    show lg.league_name ∈ (if ((ms.filter (fun m => in_league_window now m.config)).map
        (fun m => m.league_name)).isEmpty then ["No active leagues available"]
      else (ms.filter (fun m => in_league_window now m.config)).map (fun m => m.league_name))
    split_ifs with hE
    · rw [List.isEmpty_iff] at hE
      rw [hE] at hin
      simp at hin
    · exact hin

/-- Witness for C7 (amended): a concrete league inside its window is
offered. -/
theorem league_window_inclusive_check :
    lgShort.league_name ∈ active_leagues [lgShort] 50 :=
  (league_window_inclusive 50 lgShort.config nowW1 [lgShort] lgShort).2.2
    (by simp) (by decide)

/-- Claim C8: two `post_standings` calls at instants of the same ISO
calendar week never send twice — a successful first post appends the ISO
week number to the posted-week record, and the second call finds it
there and does not post (whatever the result log then contains). -/
theorem post_standings_once_per_week (lg : LeagueState) (n1 n2 : Instant)
    (ch1 ch2 : Option ChannelKind) (rs2 : List DiscordLadderResult)
    (s1 s2 : Bool) (rec1 rec2 : List Int)
    (hw : n1.isoWeek = n2.isoWeek)
    (h1 : post_standings lg n1 ch1 = Except.ok (s1, rec1))
    (h2 : post_standings { lg with record := rec1, results := rs2 } n2 ch2
      = Except.ok (s2, rec2)) :
    ¬(s1 = true ∧ s2 = true) := by
  rintro ⟨hs1, hs2⟩
  subst hs1
  subst hs2
  unfold post_standings at h1
  by_cases hg1 : valid_gates lg n1
  · rw [if_pos hg1] at h1
    by_cases hc1 : lg.record.contains n1.isoWeek
    · rw [if_pos hc1] at h1
      injection h1 with h1e
      exact absurd (congrArg Prod.fst h1e) (by simp)
    · rw [if_neg hc1] at h1
      cases hsend : post_standings_send lg ch1 with
      | error e =>
        rw [hsend] at h1
        exact Except.noConfusion h1
      | ok sent =>
        rw [hsend] at h1
        have h1e : (Except.ok (sent, lg.record ++ [n1.isoWeek]) :
            Except String (Bool × List Int)) = Except.ok (true, rec1) := h1
        injection h1e with h1p
        have hrec : rec1 = lg.record ++ [n1.isoWeek] :=
          (congrArg Prod.snd h1p).symm
        unfold post_standings at h2
        by_cases hg2 : valid_gates { lg with record := rec1, results := rs2 } n2
        · rw [if_pos hg2] at h2
          have hcont : ({ lg with record := rec1, results := rs2 } :
              LeagueState).record.contains n2.isoWeek = true := by
            show rec1.contains n2.isoWeek = true
            rw [hrec, ← hw]
            exact List.elem_eq_true_of_mem (by simp)
          rw [if_pos hcont] at h2
          injection h2 with h2e
          exact absurd (congrArg Prod.fst h2e) (by simp)
        · rw [if_neg hg2] at h2
          injection h2 with h2e
          exact absurd (congrArg Prod.fst h2e) (by simp)
  · rw [if_neg hg1] at h1
    injection h1 with h1e
    exact absurd (congrArg Prod.fst h1e) (by simp)

/-- Witness for C8: a concrete league posts on Friday of ISO week 1 and
a Saturday call in the same week does not post again. -/
theorem post_standings_once_per_week_check :
    ¬((true : Bool) = true ∧ (false : Bool) = true) :=
  post_standings_once_per_week lgReady nowW1 nowW2
    (some ChannelKind.textChannel) (some ChannelKind.textChannel)
    lgReady.results true false [1] [1] (by rfl) (by rfl) (by rfl)

/-- Claim C9: when all four posting gates pass but the result log is
empty, no message is sent yet the ISO week number is still appended to
the posted-week record, so no later call in the same ISO week can post
even if results have arrived by then. -/
theorem empty_standings_still_records_week (lg : LeagueState) (n1 : Instant)
    (ch1 : Option ChannelKind)
    (hres : lg.results = [])
    (hg : valid_gates lg n1 = true)
    (hc : lg.record.contains n1.isoWeek = false) :
    post_standings lg n1 ch1 = Except.ok (false, lg.record ++ [n1.isoWeek])
    ∧ ∀ (n2 : Instant) (rs2 : List DiscordLadderResult)
        (ch2 : Option ChannelKind) (s2 : Bool) (rec2 : List Int),
        n2.isoWeek = n1.isoWeek →
        post_standings { lg with record := lg.record ++ [n1.isoWeek], results := rs2 } n2 ch2
          = Except.ok (s2, rec2) → s2 = false := by
  have hsend : post_standings_send lg ch1 = Except.ok false := by
    unfold post_standings_send
    rw [hres]
    rfl
  constructor
  · unfold post_standings
    rw [if_pos hg,
      if_neg (show ¬(lg.record.contains n1.isoWeek = true) by rw [hc]; simp),
      hsend]
    rfl
  · intro n2 rs2 ch2 s2 rec2 hw2 h2
    unfold post_standings at h2
    by_cases hg2 : valid_gates
        { lg with record := lg.record ++ [n1.isoWeek], results := rs2 } n2
    · rw [if_pos hg2] at h2
      have hcont : ({ lg with record := lg.record ++ [n1.isoWeek], results := rs2 } :
          LeagueState).record.contains n2.isoWeek = true := by
        show (lg.record ++ [n1.isoWeek]).contains n2.isoWeek = true
        rw [hw2]
        exact List.elem_eq_true_of_mem (by simp)
      rw [if_pos hcont] at h2
      injection h2 with h2e
      exact (congrArg Prod.fst h2e).symm
    · rw [if_neg hg2] at h2
      injection h2 with h2e
      exact (congrArg Prod.fst h2e).symm

/-- Witness for C9: a league with an empty log and all gates open on
Friday of ISO week 1 records the week without sending, and a Saturday
call that week with a result now in the log still does not post. -/
theorem empty_standings_still_records_week_check :
    post_standings lgEmpty nowW1 (some ChannelKind.textChannel)
      = Except.ok (false, lgEmpty.record ++ [nowW1.isoWeek])
    ∧ (false : Bool) = false := by
  have h := empty_standings_still_records_week lgEmpty nowW1
    (some ChannelKind.textChannel) (by rfl) (by rfl) (by rfl)
  exact ⟨h.1, h.2 nowW2 [rAB 1704067200] (some ChannelKind.textChannel) false
    (lgEmpty.record ++ [nowW1.isoWeek]) (by rfl) (by rfl)⟩

theorem alistLookup_filter_ne {α β : Type} [DecidableEq α]
    (m : List (α × β)) (k : α) :
    alistLookup (m.filter (fun p => p.1 ≠ k)) k = none := by
  induction m with
  | nil => rfl
  | cons p rest ih =>
    by_cases hp : p.1 = k
    · have hcond : (decide (p.1 ≠ k)) = false := by simp [hp]
      simp only [List.filter_cons, hcond, if_false]
      exact ih
    · have hcond : (decide (p.1 ≠ k)) = true := by simp [hp]
      simp only [List.filter_cons, hcond, if_true]
      show (if k = p.1 then some p.2
        else alistLookup (rest.filter (fun p => p.1 ≠ k)) k) = none
      rw [if_neg (fun hc => hp hc.symm)]
      exact ih

/-- Claim C10: a due message job whose channel lookup resolves to nothing
is silently skipped (no send, no error), yet still archived: removed from
the in-memory job map, its file moved from pending to finished, so no due
list of any later tick (or reload) contains it. -/
theorem none_channel_job_done_not_retried (env : DiscordEnv) (j : MessageJob)
    (now : Int) (st : HandlerState)
    (hch : env.get_channel j.channel_id = none)
    (hdue : j.timestamp ≤ now)
    (hkeys : ∀ pr ∈ st.jobs, pr.2.id = pr.1)
    (hnodup : st.pending.Nodup) :
    run_job env j = Except.ok false
    ∧ step_job env j st = mark_done j st
    ∧ (mark_done j st).sent = st.sent
    ∧ alistLookup (mark_done j st).jobs j.id = none
    ∧ ¬(j.id ∈ (mark_done j st).pending)
    ∧ (j.id ∈ st.pending → j.id ∈ (mark_done j st).finished)
    ∧ (∀ t2 : Int, ∀ job2 ∈ due_jobs (mark_done j st) t2, job2.id ≠ j.id)
    ∧ run_jobs env { jobs := [(j.id, j)], pending := [j.id], finished := [], sent := [] } now
      = ({ jobs := [], pending := [], finished := [j.id], sent := [] }, none) := by
  have hrj : run_job env j = Except.ok false := by
    unfold run_job
    rw [hch]
  refine ⟨hrj, ?_, rfl, ?_, ?_, ?_, ?_, ?_⟩
  · simp [step_job, hrj]
  · exact alistLookup_filter_ne st.jobs j.id
  · show ¬(j.id ∈ st.pending.erase j.id)
    intro hmem
    rw [List.Nodup.mem_erase_iff hnodup] at hmem
    exact hmem.1 rfl
  · intro hmem
    show j.id ∈ (if st.pending.contains j.id then st.finished ++ [j.id]
      else st.finished)
    rw [if_pos (List.elem_eq_true_of_mem hmem)]
    simp
  · intro t2 job2 hjob2
    unfold due_jobs at hjob2
    rw [List.mem_filter] at hjob2
    obtain ⟨hmem, _⟩ := hjob2
    rw [List.mem_map] at hmem
    obtain ⟨pr, hpr, hpr2⟩ := hmem
    have hpr3 : pr ∈ st.jobs.filter (fun p => p.1 ≠ j.id) := hpr
    rw [List.mem_filter] at hpr3
    obtain ⟨hpr4, hpr5⟩ := hpr3
    have hid : pr.2.id = pr.1 := hkeys pr hpr4
    intro hcontra
    rw [← hpr2, hid] at hcontra
    simp only [decide_not, Bool.not_eq_eq_eq_not, Bool.not_true,
      decide_eq_false_iff_not] at hpr5
    exact hpr5 hcontra
  · unfold run_jobs due_jobs
    simp only [List.map_cons, List.map_nil, List.filter_cons, List.filter_nil,
      decide_eq_true_eq, hdue, if_pos]
    unfold run_jobs_from
    simp only [hrj]
    unfold run_jobs_from
    simp [mark_done]

/-- Witness for C10: a concrete due job whose channel id resolves to
nothing is skipped without sending and archived by the loop. -/
theorem none_channel_job_done_not_retried_check :
    run_job envW jobNoChan = Except.ok false
    ∧ run_jobs envW { jobs := [(jobNoChan.id, jobNoChan)], pending := [jobNoChan.id], finished := [], sent := [] } 60
      = ({ jobs := [], pending := [], finished := [jobNoChan.id], sent := [] }, none) := by
  have h := none_channel_job_done_not_retried envW jobNoChan 60 stNoChan
    (by rfl) (by decide) (by decide) (by decide)
  exact ⟨h.1, h.2.2.2.2.2.2.2⟩

theorem run_jobs_from_split (env : DiscordEnv) (bad : MessageJob)
    (post2 : List MessageJob) (e : String)
    (hbad : run_job env bad = Except.error e) :
    ∀ (pre : List MessageJob) (st : HandlerState),
      (∀ j ∈ pre, ∃ sj, run_job env j = Except.ok sj) →
      run_jobs_from env (pre ++ bad :: post2) st
        = (pre.foldl (fun s2 j => step_job env j s2) st, some e) := by
  intro pre
  induction pre with
  | nil =>
    intro st hpre
    simp only [List.nil_append, List.foldl_nil]
    unfold run_jobs_from
    simp only [hbad]
  | cons j rest ih =>
    intro st hpre
    obtain ⟨sj, hsj⟩ := hpre j (List.mem_cons_self j rest)
    simp only [List.cons_append, List.foldl_cons]
    unfold run_jobs_from
    simp only [hsj]
    rw [ih _ (fun j2 hj2 => hpre j2 (List.mem_cons_of_mem j hj2))]
    congr 1
    simp [step_job, hsj]

theorem post_standings_all_split (env : DiscordEnv) (now : Instant)
    (badL : LeagueState) (lpost : List LeagueState) (e2 : String)
    (hbadL : post_standings badL now (env.get_channel badL.channel_id)
      = Except.error e2) :
    ∀ lpre : List LeagueState,
      (∀ lg ∈ lpre, ∃ x, post_standings lg now (env.get_channel lg.channel_id)
        = Except.ok x) →
      ∃ lpre2, post_standings_all env now (lpre ++ badL :: lpost)
        = (lpre2 ++ badL :: lpost, some e2) ∧ lpre2.length = lpre.length := by
  intro lpre
  induction lpre with
  | nil =>
    intro hpre
    refine ⟨[], ?_, rfl⟩
    simp only [List.nil_append]
    unfold post_standings_all
    simp only [hbadL]
  | cons lg rest ih =>
    intro hpre
    obtain ⟨x, hx⟩ := hpre lg (List.mem_cons_self lg rest)
    obtain ⟨lpre2, hall, hlen⟩ := ih
      (fun lg2 hl => hpre lg2 (List.mem_cons_of_mem lg hl))
    refine ⟨{ lg with record := x.2 } :: lpre2, ?_, by simp [hlen]⟩
    simp only [List.cons_append]
    unfold post_standings_all
    simp only [hx]
    rw [hall]

/-- Counterexample to C6 as stated: in this tick the first due job has an
unsendable channel and raises; the tick ends with the error, the second
due job — which was due and would have sent — is left untouched in the
map, nothing is recorded as sent, and the league whose standings check
would have posted is left with an unchanged posted-week record. -/
theorem job_failure_aborts_tick :
    job_runner envW stW [lgReady] nowW1
      = ((stW, [lgReady]), some "Job requested invalid channel")
    ∧ alistLookup stW.jobs "b" = some jobGood
    ∧ jobGood.timestamp ≤ nowW1.t
    ∧ run_job envW jobGood = Except.ok true
    ∧ post_standings lgReady nowW1 (envW.get_channel lgReady.channel_id)
      = Except.ok (true, [1])
    ∧ lgReady.record = [] ∧ stW.sent = [] := by
  exact ⟨rfl, rfl, by decide, rfl, rfl, rfl, rfl⟩

/-- Claim C6 as amended: failures are not isolated within a tick — the
loop aborts at the first failure.  If a due job fails, due jobs after it
are not attempted and no league's standings check runs in that tick; if
one league's standings post fails, the remaining leagues' checks are not
attempted (their states are returned untouched). -/
theorem tick_aborts_at_first_failure (env : DiscordEnv) (st : HandlerState)
    (now : Instant) (leagues : List LeagueState) (pre : List MessageJob)
    (bad : MessageJob) (post2 : List MessageJob) (e : String)
    (hdue : due_jobs st now.t = pre ++ bad :: post2)
    (hpre : ∀ j ∈ pre, ∃ sj, run_job env j = Except.ok sj)
    (hbad : run_job env bad = Except.error e) :
    run_jobs env st now.t = (pre.foldl (fun s2 j => step_job env j s2) st, some e)
    ∧ job_runner env st leagues now
      = ((pre.foldl (fun s2 j => step_job env j s2) st, leagues), some e)
    ∧ (∀ (lpre : List LeagueState) (badL : LeagueState)
        (lpost : List LeagueState) (e2 : String),
        (∀ lg ∈ lpre, ∃ x, post_standings lg now (env.get_channel lg.channel_id)
          = Except.ok x) →
        post_standings badL now (env.get_channel badL.channel_id)
          = Except.error e2 →
        ∃ lpre2, post_standings_all env now (lpre ++ badL :: lpost)
          = (lpre2 ++ badL :: lpost, some e2) ∧ lpre2.length = lpre.length) := by
  have h1 : run_jobs env st now.t
      = (pre.foldl (fun s2 j => step_job env j s2) st, some e) := by
    unfold run_jobs
    rw [hdue]
    exact run_jobs_from_split env bad post2 e hbad pre st hpre
  refine ⟨h1, ?_, ?_⟩
  · unfold job_runner
    rw [h1]
  · intro lpre badL lpost e2 hlpre hbadL
    exact post_standings_all_split env now badL lpost e2 hbadL lpre hlpre

/-- Witness for C6 (amended): the concrete failing tick of
`job_failure_aborts_tick` stops at its first job. -/
theorem tick_aborts_at_first_failure_check :
    run_jobs envW stW nowW1.t = (stW, some "Job requested invalid channel") := by
  have h := tick_aborts_at_first_failure envW stW nowW1 [lgReady] [] jobBad
    [jobGood] "Job requested invalid channel" (by rfl) (by simp) (by rfl)
  exact h.1
